import Mathlib

/-!
# Verification of the photo-collector security core

Shallow embedding of the repository's security-relevant code:

* `Encryption` — the encryption utilities (`server/utils/encryption.js`):
  AES-256-GCM encrypt/decrypt of `IV || ciphertext || tag` blobs, HMAC
  integrity tags, and the PHI record wrappers `encryptPHI` / `decryptPHI`.
* `Auth` — the authentication routes (`server/routes/auth.js`): the login
  handler with its rate-limiting check, the verify handler, and the
  in-memory session store.
* `Audit` — the audit logger (`server/utils/auditLogger.js`): entry
  construction, patient-id hashing, sensitive-field redaction, and the
  fallback path when the log sink fails.

Modelling conventions:

* Byte strings are `List Nat` with each element `< 256`.  Base64
  encoding/decoding is modelled as the identity on byte sequences (it is a
  bijection between byte sequences and their base64 forms, and the code
  always decodes what it encoded).
* The source's cipher calls are `crypto.createCipherGCM` and
  `crypto.createDecipherGCM`.  Node's `crypto` module exposes no functions
  of these names (its AEAD API is `createCipheriv` / `createDecipheriv`),
  so at runtime both calls throw
  `TypeError: crypto.createCipherGCM is not a function` (resp.
  `createDecipherGCM`); the model reflects this: the `try` bodies fail at
  the cipher call, right after the key-length check, and the `catch`
  blocks surface the generic `Encryption failed` / `Decryption failed`
  errors for every input.
* `crypto.createHmac('sha256', ...)` is a real API; its digest is modelled
  by a keyed polynomial over `ZMod 257` with SHA-256's 32-byte output
  length — the proofs rely only on its determinism and output length.
* Randomness (`crypto.randomBytes` for the IV) and clocks are externalized
  as explicit parameters.
* JavaScript exceptions are modelled with `Except`; a `try/catch` block is
  a `match` on the body's result, mirroring the source's re-throw of
  generic errors.
-/

namespace Encryption

/-- `KEY_LENGTH = 32` from encryption.js. -/
def KEY_LENGTH : Nat := 32

/-- `IV_LENGTH = 16` from encryption.js. -/
def IV_LENGTH : Nat := 16

/-- `TAG_LENGTH = 16` from encryption.js. -/
def TAG_LENGTH : Nat := 16

/-- Little-endian byte encoding of a natural number into a fixed number of
bytes. -/
def toBytesLE : Nat → Nat → List Nat
  | _, 0 => []
  | n, len + 1 => n % 256 :: toBytesLE (n / 256) len

/-- Little-endian byte decoding. -/
def fromBytesLE : List Nat → Nat
  | [] => 0
  | b :: rest => b + 256 * fromBytesLE rest

/-- The prime field in which the model HMAC digest is computed (`257` is
prime and exceeds every byte value). -/
abbrev Fq : Type := ZMod 257

instance : Fact (Nat.Prime 257) := ⟨by norm_num⟩

/-- Polynomial evaluation (Horner form): `polyEval [a0, a1, ...] r =
a0*r + a1*r^2 + ...`. -/
def polyEval : List Nat → Fq → Fq
  | [], _ => 0
  | a :: m, r => r * ((a : Fq) + polyEval m r)

/-- The key-dependent evaluation point of the model HMAC digest: a value
in `[1, 256]`. -/
def keyR (key : List Nat) : Nat :=
  (key.foldl (· + ·) 0) % 256 + 1

/-- The errors thrown by the encryption utilities, named after the exact
`Error` messages in encryption.js (plus the errors Node itself raises:
the `TypeError` from calling the nonexistent `createCipherGCM` /
`createDecipherGCM`, and the length error of `crypto.timingSafeEqual`). -/
inductive CryptoError where
  /-- `Invalid key length. Expected ... bytes, got ...` (thrown inside the
  `try` blocks of `encrypt`/`decrypt`, before the `catch` re-wraps it). -/
  | invalidKeyLength (expected got : Nat)
  /-- `TypeError: crypto.<name> is not a function` — thrown when the code
  calls a property the `crypto` module does not have.  Node's `crypto` has
  no `createCipherGCM` or `createDecipherGCM` (the real API is
  `createCipheriv` / `createDecipheriv`), so both cipher calls throw
  this. -/
  | typeErrorNotAFunction (name : String)
  /-- `Encryption failed` — the generic error re-thrown by `encrypt`'s
  `catch` block. -/
  | encryptionFailed
  /-- `Decryption failed` — the generic error re-thrown by `decrypt`'s
  `catch` block. -/
  | decryptionFailed
  /-- `Data integrity check failed` — thrown by `decryptPHI` when
  `verifyHMAC` returns false. -/
  | integrityCheckFailed
  /-- A `JSON.parse` failure in `decryptPHI` (propagates uncaught). -/
  | jsonParseError
  /-- `Metadata mismatch detected` — thrown by `decryptPHI`. -/
  | metadataMismatch
  /-- The error `crypto.timingSafeEqual` raises when its two buffers have
  different byte lengths (propagates uncaught out of `verifyHMAC`). -/
  | timingSafeEqualLength (a b : Nat)
deriving DecidableEq

/-- The body of `encrypt`'s `try` block: the key-length check (which can
throw `Invalid key length...`), then the call
`crypto.createCipherGCM(ALGORITHM, encryptionKey, iv)`.  That function
does not exist in Node's `crypto` module, so the call throws
`TypeError: crypto.createCipherGCM is not a function` before any
encryption happens; no blob is ever produced.  The random IV
(`crypto.randomBytes(IV_LENGTH)`) is an explicit parameter. -/
def encryptBody (plaintext key : List Nat) (associatedData : Option (List Nat))
    (iv : List Nat) : Except CryptoError (List Nat) :=
  if key.length ≠ KEY_LENGTH then
    .error (.invalidKeyLength KEY_LENGTH key.length)
  else
    .error (.typeErrorNotAFunction "createCipherGCM")

/-- `encrypt(plaintext, key, associatedData)` from encryption.js: the `try`
body wrapped by the `catch` block, which re-throws every failure as the
generic `Encryption failed` error. -/
def encrypt (plaintext key : List Nat) (associatedData : Option (List Nat))
    (iv : List Nat) : Except CryptoError (List Nat) :=
  match encryptBody plaintext key associatedData iv with
  | .ok r => .ok r
  | .error _ => .error .encryptionFailed

/-- The body of `decrypt`'s `try` block: the key-length check, the pure
base64 decode and `slice` extraction of `iv`, `ciphertext` and `tag`
(which cannot throw), then the call
`crypto.createDecipherGCM(ALGORITHM, encryptionKey, iv)`.  That function
does not exist in Node's `crypto` module, so the call throws
`TypeError: crypto.createDecipherGCM is not a function`; tag verification
is never reached and no plaintext is ever returned. -/
def decryptBody (encryptedData key : List Nat) (associatedData : Option (List Nat)) :
    Except CryptoError (List Nat) :=
  if key.length ≠ KEY_LENGTH then
    .error (.invalidKeyLength KEY_LENGTH key.length)
  else
    .error (.typeErrorNotAFunction "createDecipherGCM")

/-- `decrypt(encryptedData, key, associatedData)` from encryption.js: the
`try` body wrapped by the `catch` block, which re-throws every failure as
the generic `Decryption failed` error. -/
def decrypt (encryptedData key : List Nat) (associatedData : Option (List Nat)) :
    Except CryptoError (List Nat) :=
  match decryptBody encryptedData key associatedData with
  | .ok r => .ok r
  | .error _ => .error .decryptionFailed

/-- `createHMAC(data, key)` from encryption.js: HMAC-SHA256 over `data`
under `key`, producing a 32-byte tag (SHA-256 output size).  Modelled as a
keyed polynomial digest, padded to the 32-byte output length. -/
def createHMAC (data key : List Nat) : List Nat :=
  toBytesLE (polyEval (key ++ data ++ toBytesLE data.length 8) ((keyR key : Nat) : Fq)).val 32

/-- `verifyHMAC(data, hmacValue, key)` from encryption.js: recomputes the
HMAC and compares with `crypto.timingSafeEqual`, which throws (rather than
returning false) when the two buffers have different byte lengths. -/
def verifyHMAC (data hmacValue key : List Nat) : Except CryptoError Bool :=
  let computedHmac := createHMAC data key
  if hmacValue.length ≠ computedHmac.length then
    .error (.timingSafeEqualLength hmacValue.length computedHmac.length)
  else
    .ok (hmacValue == computedHmac)

/-- The record returned by `encryptPHI`:
`{encrypted_data, integrity_hash, encrypted_at}`.  Timestamps (ISO strings
in the source) are modelled as naturals. -/
structure PHIRecord where
  encrypted_data : List Nat
  integrity_hash : List Nat
  encrypted_at : Nat
deriving DecidableEq

/-- `JSON.stringify({data: phiData, encrypted_at: timestamp, version})`,
modelled as an injective encoding of the `(timestamp, data)` pair. -/
def serializeMeta (phiData : List Nat) (ts : Nat) : List Nat :=
  toBytesLE ts 8 ++ phiData

/-- `JSON.parse` of a serialized payload: recovers the
`(encrypted_at, data)` pair, failing on inputs too short to carry the
metadata. -/
def parseMeta (l : List Nat) : Option (Nat × List Nat) :=
  if l.length < 8 then none else some (fromBytesLE (l.take 8), l.drop 8)

/-- The associated data `encryptPHI` binds into the authentication tag:
the encryption timestamp (`Buffer.from(timestamp)`). -/
def tsAAD (ts : Nat) : List Nat :=
  toBytesLE ts 8

/-- `encryptPHI(phiData, masterKey)` from encryption.js: serializes the
payload with its timestamp, encrypts it with the timestamp as associated
data, and attaches a separate HMAC over the resulting ciphertext blob.
The timestamp (`new Date().toISOString()`) and the IV are explicit
parameters; a failure of `encrypt` propagates uncaught. -/
def encryptPHI (phiData masterKey : List Nat) (ts : Nat) (iv : List Nat) :
    Except CryptoError PHIRecord :=
  match encrypt (serializeMeta phiData ts) masterKey (some (tsAAD ts)) iv with
  | .error e => .error e
  | .ok encryptedData =>
    .ok { encrypted_data := encryptedData,
          integrity_hash := createHMAC encryptedData masterKey,
          encrypted_at := ts }

/-- `decryptPHI(encryptedPHI, masterKey)` from encryption.js: verifies the
HMAC (`Data integrity check failed` when it returns false; the length
error `timingSafeEqual` itself raises propagates uncaught), then decrypts
with the record's `encrypted_at` as associated data, parses the payload,
and compares the recovered timestamp with the record's `encrypted_at`
(`Metadata mismatch detected` on difference).  Since `decrypt` always
throws (nonexistent `createDecipherGCM`), the parse and metadata branches
are dead code; they are kept because they are in the source. -/
def decryptPHI (encryptedPHI : PHIRecord) (masterKey : List Nat) :
    Except CryptoError (List Nat) :=
  match verifyHMAC encryptedPHI.encrypted_data encryptedPHI.integrity_hash masterKey with
  | .error e => .error e
  | .ok false => .error .integrityCheckFailed
  | .ok true =>
    match decrypt encryptedPHI.encrypted_data masterKey
        (some (tsAAD encryptedPHI.encrypted_at)) with
    | .error e => .error e
    | .ok plaintext =>
      match parseMeta plaintext with
      | none => .error .jsonParseError
      | some (ts, d) =>
        if ts ≠ encryptedPHI.encrypted_at then .error .metadataMismatch else .ok d

end Encryption

namespace Auth

/-- A record of the mock user database (`users` in auth.js). -/
structure User where
  id : String
  username : String
  passwordHash : String
  organizationId : String
  role : String
  permissions : List String
  isActive : Bool
deriving DecidableEq

/-- A stored session (`activeSessions.set(sessionId, {...})` in auth.js);
times are epoch milliseconds. -/
structure Session where
  userId : String
  username : String
  organizationId : String
  clientIP : String
  userAgent : String
  createdAt : Nat
  expiresAt : Nat
  loginAttempts : Nat
deriving DecidableEq

/-- The in-memory `activeSessions` map, as an association list. -/
abbrev SessionStore : Type := List (String × Session)

/-- `activeSessions.get(sessionId)`. -/
def lookupSession (st : SessionStore) (sessionId : String) : Option Session :=
  (st.find? (fun e => e.1 == sessionId)).map (fun e => e.2)

/-- `activeSessions.delete(sessionId)`. -/
def removeSession (st : SessionStore) (sessionId : String) : SessionStore :=
  st.filter (fun e => !(e.1 == sessionId))

/-- A JSON response sent by a route handler: HTTP status and the
`message` field of the body (empty for the success payloads, whose bodies
carry data rather than a message). -/
structure HttpResponse where
  status : Nat
  message : String
deriving DecidableEq

/-- One `auditLogger.log(level, eventType, ...)` call made by a handler. -/
structure AuditCall where
  level : String
  eventType : String
deriving DecidableEq

/-- The outcome of one `POST /auth/login` request: the response, the audit
calls made, and the session store afterwards. -/
structure LoginResult where
  response : HttpResponse
  audit : List AuditCall
  store : SessionStore
deriving DecidableEq

/-- Model of `bcrypt.hash`: an injective encoding of the password (bcrypt
comparison is deterministic; the mock hash for `demo` verifies exactly the
password `demo123`). -/
def bcryptHash (password : String) : String :=
  "bcrypt$" ++ password

/-- Model of `bcrypt.compare(password, passwordHash)`. -/
def bcryptCompare (password passwordHash : String) : Bool :=
  passwordHash == bcryptHash password

/-- The mock user database from auth.js (`users`): the single `demo`
user. -/
def users : List (String × User) :=
  [("demo",
    { id := "user_001", username := "demo", passwordHash := bcryptHash "demo123",
      organizationId := "org_healthcare_001", role := "healthcare_provider",
      permissions := ["read", "write", "upload"], isActive := true })]

/-- The `recentAttempts` computation at the top of the login handler: the
sum of `loginAttempts` over stored sessions with the same `clientIP` and
`loginAttempts > 0`. -/
def recentAttempts (st : SessionStore) (clientIP : String) : Nat :=
  (((st.map (fun e => e.2)).filter
      (fun s => s.clientIP == clientIP && decide (0 < s.loginAttempts))).map
    (fun s => s.loginAttempts)).sum

/-- The `POST /auth/login` handler from auth.js.  The user database, the
clock, and the generated `sessionId` are explicit parameters;  the JWT
signing step always succeeds and is not modelled beyond the session store
update.  Branches in source order: the `recentAttempts >= 3` rate-limit
check (429), unknown user (401 `Invalid credentials`), inactive user
(401 `Account is disabled`), failed `bcrypt.compare` (401
`Invalid credentials`) — note that no branch ever increments
`loginAttempts` — and success (session stored with `loginAttempts: 0` and
`expiresAt = now + 1h`). -/
def loginHandler (usersDb : List (String × User)) (st : SessionStore)
    (username password clientIP userAgent : String) (now : Nat)
    (sessionId : String) : LoginResult :=
  if 3 ≤ recentAttempts st clientIP then
    { response := ⟨429, "Too many login attempts. Please try again later."⟩,
      audit := [⟨"warning", "excessive_login_attempts"⟩], store := st }
  else
    match (usersDb.find? (fun e => e.1 == username)).map (fun e => e.2) with
    | none =>
      { response := ⟨401, "Invalid credentials"⟩,
        audit := [⟨"warning", "login_user_not_found"⟩], store := st }
    | some user =>
      if user.isActive = false then
        { response := ⟨401, "Account is disabled"⟩,
          audit := [⟨"warning", "login_inactive_user"⟩], store := st }
      else if bcryptCompare password user.passwordHash = false then
        { response := ⟨401, "Invalid credentials"⟩,
          audit := [⟨"warning", "login_invalid_password"⟩], store := st }
      else
        { response := ⟨200, ""⟩,
          audit := [⟨"info", "login_success"⟩],
          store := (sessionId,
            { userId := user.id, username := user.username,
              organizationId := user.organizationId, clientIP := clientIP,
              userAgent := userAgent, createdAt := now,
              expiresAt := now + 60 * 60 * 1000, loginAttempts := 0 }) :: st }

/-- A sequence of login requests with the given `(username, password)`
pairs, from one client, threading the session store. -/
def loginSeq (usersDb : List (String × User)) (st : SessionStore)
    (creds : List (String × String)) (clientIP userAgent : String)
    (now : Nat) : List HttpResponse × SessionStore :=
  match creds with
  | [] => ([], st)
  | (u, p) :: rest =>
    let r := loginHandler usersDb st u p clientIP userAgent now "sid"
    let rec2 := loginSeq usersDb r.store rest clientIP userAgent now
    (r.response :: rec2.1, rec2.2)

/-- The `GET /auth/verify` handler from auth.js (after `authenticateToken`
has validated the JWT): looks the session up (`Session expired` when
absent, i.e. revoked or swept), deletes and rejects it when
`now > expiresAt`, and otherwise responds with the session data. -/
def verifyHandler (st : SessionStore) (sessionId : String) (now : Nat) :
    HttpResponse × SessionStore :=
  match lookupSession st sessionId with
  | none => (⟨401, "Session expired"⟩, st)
  | some session =>
    if session.expiresAt < now then
      (⟨401, "Session expired"⟩, removeSession st sessionId)
    else
      (⟨200, ""⟩, st)

end Auth

namespace Audit

/-- A JSON-like value, as held by an audit entry (auditLogger.js works on
plain objects). -/
inductive Jval where
  | s (v : String)
  | n (v : Nat)
  | b (v : Bool)
  | null
  | obj (fields : List (String × Jval))
  | arr (elems : List Jval)

/-- The fields of a JSON-like object. -/
abbrev Jfields : Type := List (String × Jval)

/-- Property lookup `o[k]` (first binding wins, as in a JS object where
keys are unique). -/
def lookupField (fields : Jfields) (k : String) : Option Jval :=
  (fields.find? (fun e => e.1 == k)).map (fun e => e.2)

/-- Property deletion `delete o[k]`. -/
def removeField (fields : Jfields) (k : String) : Jfields :=
  fields.filter (fun e => !(e.1 == k))

/-- The object-literal spread `{...base fields..., ...data}`: keys of
`base` keep their position but are overridden by `data`, and keys new in
`data` are appended. -/
def spreadMerge (base data : Jfields) : Jfields :=
  base.map (fun e => (e.1, (lookupField data e.1).getD e.2)) ++
    data.filter (fun e => !(base.any (fun b => b.1 == e.1)))

/-- JavaScript truthiness of a value. -/
def truthy : Jval → Bool
  | .s v => !(v == "")
  | .n v => !(v == 0)
  | .b v => v
  | .null => false
  | .obj _ => true
  | .arr _ => true

/-- JavaScript string coercion, as applied to the value handed to
`hashSensitiveData` (the audited patient identifiers are strings). -/
def jvalToString : Jval → String
  | .s v => v
  | .n v => toString v
  | .b v => if v then "true" else "false"
  | .null => "null"
  | .obj _ => "[object Object]"
  | .arr _ => ""

/-- `pat.isPrefixOf hay` on character lists. -/
def leadMatch : List Char → List Char → Bool
  | [], _ => true
  | _ :: _, [] => false
  | a :: as, b :: bs => a == b && leadMatch as bs

/-- Substring occurrence on character lists. -/
def containsSeq (pat : List Char) : List Char → Bool
  | [] => pat.isEmpty
  | b :: bs => leadMatch pat (b :: bs) || containsSeq pat bs

/-- JavaScript `s.includes(pat)`. -/
def strIncludes (s pat : String) : Bool :=
  containsSeq pat.data s.data

/-- The `sensitiveFields` list of `sanitizeAuditEntry`. -/
def sensitiveFields : List String :=
  ["password", "token", "secret", "key", "authorization", "cookie", "session", "csrf"]

/-- ASCII lower-casing of one character (`String.prototype.toLowerCase`
on the ASCII keys the logger sees). -/
def lowerChar (c : Char) : Char :=
  if 65 ≤ c.toNat ∧ c.toNat ≤ 90 then Char.ofNat (c.toNat + 32) else c

/-- ASCII lower-casing of a string. -/
def lowerStr (s : String) : String :=
  String.mk (s.data.map lowerChar)

/-- ASCII upper-casing of one character (`level.toUpperCase()`). -/
def upperChar (c : Char) : Char :=
  if 97 ≤ c.toNat ∧ c.toNat ≤ 122 then Char.ofNat (c.toNat - 32) else c

/-- ASCII upper-casing of a string. -/
def upperStr (s : String) : String :=
  String.mk (s.data.map upperChar)

/-- A key matches the sensitive-field patterns when its lower-cased form
contains one of them as a substring. -/
def isSensitiveKey (k : String) : Bool :=
  sensitiveFields.any (fun f => strIncludes (lowerStr k) f)

/-- The redaction marker. -/
def REDACTED : Jval := .s "[REDACTED]"

mutual

/-- `sanitizeObject` from `sanitizeAuditEntry` in auditLogger.js: every
field whose key matches a sensitive pattern is replaced by `[REDACTED]`
(and, being a string afterwards, is not recursed into); other fields are
recursed into when they hold objects (arrays included, whose numeric keys
never match). -/
def sanitizeValue : Jval → Jval
  | .obj fields => .obj (sanitizeFields fields)
  | .arr elems => .arr (sanitizeElems elems)
  | v => v

def sanitizeFields : List (String × Jval) → List (String × Jval)
  | [] => []
  | (k, v) :: rest =>
    (if isSensitiveKey k then (k, REDACTED) else (k, sanitizeValue v)) :: sanitizeFields rest

def sanitizeElems : List Jval → List Jval
  | [] => []
  | v :: rest => sanitizeValue v :: sanitizeElems rest

end

/-- A hex digit character (`0`–`9`, `a`–`f`). -/
def hexDigitCh (d : Nat) : Char :=
  if d < 10 then Char.ofNat (48 + d) else Char.ofNat (87 + d)

/-- Little-endian hex rendering of a number into a fixed number of
digits. -/
def natToHexChars : Nat → Nat → List Char
  | _, 0 => []
  | v, l + 1 => hexDigitCh (v % 16) :: natToHexChars (v / 16) l

/-- Model of the SHA-256 digest value of a string: an arbitrary-but-fixed
computable mixing function. -/
def sha256mix (s : String) : Nat :=
  s.data.foldl (fun a c => (a * 131 + c.toNat + 17) % (2 ^ 64)) 5381

/-- The salt appended by `hashSensitiveData`.  In the source,
`data + process.env.AUDIT_SALT || 'default-audit-salt'` binds as
`(data + process.env.AUDIT_SALT) || '...'`; with the variable unset the
concatenation yields the (truthy) string `...undefined`, so the effective
salt is the literal string `undefined`. -/
def AUDIT_SALT : String := "undefined"

/-- `hashSensitiveData(data)` from auditLogger.js:
`sha256(data + salt)` rendered as hex, truncated to the first 16
characters. -/
def hashSensitiveData (data : String) : String :=
  String.mk (natToHexChars (sha256mix (data ++ AUDIT_SALT)) 16)

/-- The base fields of an audit entry (`eventId`, `eventType`,
upper-cased `level`, `timestamp`, `source`), before `...eventData` is
spread over them. -/
def entryBase (level eventType eventId timestamp : String) : Jfields :=
  [("eventId", .s eventId), ("eventType", .s eventType),
   ("level", .s (upperStr level)), ("timestamp", .s timestamp),
   ("source", .s "hipaa-photo-collector-api")]

/-- The `eventData.req && eventData.req.user` condition of `log`: the
fields of the request's `user` object when both are present. -/
def reqUserFields (eventData : Jfields) : Option Jfields :=
  match lookupField eventData "req" with
  | some (.obj reqFields) =>
    match lookupField reqFields "user" with
    | some (.obj userFields) => some userFields
    | _ => none
  | _ => none

/-- The `if (eventData.req && eventData.req.user)` step of `log`: copy the
identity claims into `sessionContext` and `delete auditEntry.req`. -/
def addSessionContext (eventData entry : Jfields) : Jfields :=
  (reqUserFields eventData).elim entry (fun userFields =>
    removeField entry "req" ++
      [("sessionContext", .obj
        [("userId", (lookupField userFields "userId").getD .null),
         ("username", (lookupField userFields "username").getD .null),
         ("organizationId", (lookupField userFields "organizationId").getD .null),
         ("sessionId", (lookupField userFields "sessionId").getD .null)])])

/-- The truthy `eventData.clientIP` value of `log`, when present. -/
def clientIPVal (eventData : Jfields) : Option Jval :=
  match lookupField eventData "clientIP" with
  | some ip => if truthy ip then some ip else none
  | none => none

/-- `eventData.userAgent || 'unknown'`. -/
def userAgentVal (eventData : Jfields) : Jval :=
  match lookupField eventData "userAgent" with
  | some ua => if truthy ua then ua else .s "unknown"
  | none => .s "unknown"

/-- The `if (eventData.clientIP)` step of `log`: attach a
`networkContext` with the client IP and the user agent (defaulted to
`unknown`). -/
def addNetworkContext (eventData entry : Jfields) : Jfields :=
  (clientIPVal eventData).elim entry (fun ip =>
    entry ++
      [("networkContext", .obj
        [("clientIP", ip), ("userAgent", userAgentVal eventData)])])

/-- The truthy top-level `auditEntry.patientId` value, when present. -/
def patientIdVal (entry : Jfields) : Option Jval :=
  match lookupField entry "patientId" with
  | some pid => if truthy pid then some pid else none
  | none => none

/-- The `if (auditEntry.patientId)` step of `log`: replace a truthy
top-level `patientId` by `hashedPatientId` and delete the raw value. -/
def hashPatientField (entry : Jfields) : Jfields :=
  (patientIdVal entry).elim entry (fun pid =>
    removeField entry "patientId" ++
      [("hashedPatientId", .s (hashSensitiveData (jvalToString pid)))])

/-- The audit entry assembled by `log(level, eventType, eventData)` before
emission: base fields spread with `eventData`, the `req`-derived
`sessionContext`, the `clientIP`-derived `networkContext`, the hashing and
removal of a truthy top-level `patientId`, and finally
`sanitizeAuditEntry`.  The generated `eventId` (`crypto.randomUUID()`) and
the timestamp are explicit parameters. -/
def buildAuditEntry (level eventType : String) (eventData : Jfields)
    (eventId timestamp : String) : Jfields :=
  sanitizeFields
    (hashPatientField
      (addNetworkContext eventData
        (addSessionContext eventData
          (spreadMerge (entryBase level eventType eventId timestamp) eventData))))

/-- The error thrown when a winston transport cannot write. -/
inductive SinkError where
  | sinkUnavailable
deriving DecidableEq

/-- One emission performed by the audit logger. -/
inductive Emission where
  /-- `auditLogger.log(level, JSON.stringify(auditEntry))`. -/
  | audit (level : String) (entry : Jfields)
  /-- `logSecurityEvent(auditEntry)` (the security-alerts channel). -/
  | security (entry : Jfields)
  /-- The `catch`-block fallback: `console.error` plus the ad-hoc console
  logger's `AUDIT_LOG_FAILURE` record carrying the original event type. -/
  | fallbackConsole (originalEvent : String)

/-- The condition under which `log` also calls `logSecurityEvent`:
`['error', 'warn'].includes(level) || eventType.includes('security') ||
eventType.includes('intrusion')`. -/
def isSecurityEvent (level eventType : String) : Bool :=
  level == "error" || level == "warn" ||
    strIncludes eventType "security" || strIncludes eventType "intrusion"

/-- The `try` body of `log` in auditLogger.js: build the entry, write it
to the audit sink (which may throw), and for security events also write
to the security channel (which may throw); on success the generated
`eventId` is returned.  `sinkOk` / `securitySinkOk` model whether the
winston transports are available. -/
def logTry (level eventType : String) (eventData : Jfields)
    (eventId timestamp : String) (sinkOk securitySinkOk : Bool) :
    Except SinkError (String × List Emission) :=
  let entry := buildAuditEntry level eventType eventData eventId timestamp
  if sinkOk = false then .error .sinkUnavailable
  else if isSecurityEvent level eventType then
    if securitySinkOk = false then .error .sinkUnavailable
    else .ok (eventId, [.audit level entry, .security entry])
  else .ok (eventId, [.audit level entry])

/-- `log(level, eventType, eventData)` from auditLogger.js: the `try`
body wrapped by the `catch` block, which logs an `AUDIT_LOG_FAILURE`
fallback record to the console and falls off the function (returning
`undefined`, modelled as `none`) instead of re-throwing — or returning an
id. -/
def log (level eventType : String) (eventData : Jfields)
    (eventId timestamp : String) (sinkOk securitySinkOk : Bool) :
    Except SinkError (Option String × List Emission) :=
  match logTry level eventType eventData eventId timestamp sinkOk securitySinkOk with
  | .ok (eid, ems) => .ok (some eid, ems)
  | .error _ => .ok (none, [.fallbackConsole eventType])

mutual

/-- The redaction invariant over an emitted value: every field, at any
nesting depth, whose key matches a sensitive pattern holds the redaction
marker. -/
def RedactedVal : Jval → Prop
  | .obj fields => RedactedFields fields
  | .arr elems => RedactedElems elems
  | _ => True

/-- The redaction invariant over object fields. -/
def RedactedFields : List (String × Jval) → Prop
  | [] => True
  | (k, v) :: rest =>
    (if isSensitiveKey k then v = REDACTED else RedactedVal v) ∧ RedactedFields rest

/-- The redaction invariant over array elements. -/
def RedactedElems : List Jval → Prop
  | [] => True
  | v :: rest => RedactedVal v ∧ RedactedElems rest

end

end Audit

namespace Encryption

theorem toBytesLE_length (n len : Nat) : (toBytesLE n len).length = len := by
  induction len generalizing n with
  | zero => rfl
  | succ l ih => simp [toBytesLE, ih]

theorem createHMAC_length (data key : List Nat) : (createHMAC data key).length = 32 :=
  toBytesLE_length _ _

theorem verifyHMAC_self (data key : List Nat) :
    verifyHMAC data (createHMAC data key) key = .ok true := by
  unfold verifyHMAC
  simp

/-- A record whose `integrity_hash` has the right length but the wrong
value is rejected by `decryptPHI` with `Data integrity check failed`. -/
theorem decryptPHI_bad_hmac (rec : PHIRecord) (masterKey : List Nat)
    (hlen : rec.integrity_hash.length = 32)
    (hne : rec.integrity_hash ≠ createHMAC rec.encrypted_data masterKey) :
    decryptPHI rec masterKey = .error .integrityCheckFailed := by
  have hbeq : (rec.integrity_hash == createHMAC rec.encrypted_data masterKey) = false := by
    simpa using hne
  unfold decryptPHI verifyHMAC
  rw [if_neg (by simp [createHMAC_length, hlen]), hbeq]

/-- `encrypt` fails for every input: the `createCipherGCM` call in its
`try` body throws a `TypeError` (for valid keys) or the key-length check
throws (for invalid keys), and the `catch` surfaces the generic error
either way. -/
theorem encrypt_always_fails (p key : List Nat) (aad : Option (List Nat)) (iv : List Nat) :
    encrypt p key aad iv = .error .encryptionFailed := by
  unfold encrypt encryptBody
  by_cases h : key.length ≠ KEY_LENGTH
  · simp [h]
  · simp [h]

/-- `decrypt` fails for every input: the `createDecipherGCM` call in its
`try` body throws a `TypeError` (for valid keys) or the key-length check
throws (for invalid keys), and the `catch` surfaces the generic error
either way; no plaintext is ever returned. -/
theorem decrypt_always_fails (blob key : List Nat) (aad : Option (List Nat)) :
    decrypt blob key aad = .error .decryptionFailed := by
  unfold decrypt decryptBody
  by_cases h : key.length ≠ KEY_LENGTH
  · simp [h]
  · simp [h]

/-- `encryptPHI` fails for every input: its `encrypt` call always throws
`Encryption failed`, which propagates uncaught. -/
theorem encryptPHI_always_fails (phiData masterKey : List Nat) (ts : Nat) (iv : List Nat) :
    encryptPHI phiData masterKey ts iv = .error .encryptionFailed := by
  unfold encryptPHI
  rw [encrypt_always_fails]

/-- The only error `verifyHMAC` itself raises is `timingSafeEqual`'s
length error. -/
theorem verifyHMAC_error_shape (data tag key : List Nat) (e : CryptoError)
    (h : verifyHMAC data tag key = .error e) :
    e = .timingSafeEqualLength tag.length 32 := by
  unfold verifyHMAC at h
  by_cases hl : tag.length ≠ (createHMAC data key).length
  · rw [if_pos hl] at h
    have h2 := (Except.error.inj h).symm
    rw [h2, createHMAC_length]
  · rw [if_neg hl] at h
    exact absurd h (by simp)

/-- `decryptPHI` can only fail, in one of exactly three ways: the generic
`Decryption failed` (HMAC passed, cipher call failed), the
`Data integrity check failed` (HMAC mismatched), or `timingSafeEqual`'s
length error; in particular it never returns a payload and never raises
`Metadata mismatch detected`. -/
theorem decryptPHI_result_shape (rec : PHIRecord) (masterKey : List Nat) :
    decryptPHI rec masterKey = .error .decryptionFailed ∨
    decryptPHI rec masterKey = .error .integrityCheckFailed ∨
    decryptPHI rec masterKey =
      .error (.timingSafeEqualLength rec.integrity_hash.length 32) := by
  unfold decryptPHI
  cases hv : verifyHMAC rec.encrypted_data rec.integrity_hash masterKey with
  | error e =>
    have he := verifyHMAC_error_shape _ _ _ e hv
    right; right
    rw [he]
  | ok b =>
    cases b with
    | false =>
      right; left
      rfl
    | true =>
      left
      rw [decrypt_always_fails]

end Encryption


/-- C1 (code-bug evidence): `encrypt` calls `crypto.createCipherGCM`,
which does not exist in Node's `crypto` module, so even for a valid
32-byte key its `try` body throws a `TypeError` and the `catch` re-throws
the generic `Encryption failed`; `decrypt` likewise always throws
`Decryption failed`.  The roundtrip `decrypt(encrypt(p, k), k) = p`
therefore never succeeds for any plaintext, key, IV or associated data —
the composed operation always fails instead of returning `p`. -/
theorem C1_roundtrip_never_succeeds (p key iv : List Nat) (aad : Option (List Nat)) :
    Encryption.encrypt p key aad iv = .error .encryptionFailed ∧
    (Encryption.encrypt p key aad iv).bind
      (fun blob => Encryption.decrypt blob key aad) = .error .encryptionFailed ∧
    ∀ blob : List Nat, Encryption.decrypt blob key aad = .error .decryptionFailed := by
  refine ⟨Encryption.encrypt_always_fails p key aad iv, ?_,
    fun blob => Encryption.decrypt_always_fails blob key aad⟩
  rw [Encryption.encrypt_always_fails]
  rfl

/-- C2 (code-bug evidence): no "valid encrypted record produced by
`encrypt`" exists — `encrypt` always throws `Encryption failed` (the
`createCipherGCM` call fails), so the claim's premise is unsatisfiable —
and `decrypt` throws the generic `Decryption failed` for every input
(the `createDecipherGCM` call fails before tag verification is ever
reached): it never returns any plaintext, altered or otherwise, and never
raises a distinct `IntegrityError`. -/
theorem C2_decrypt_always_generic (p key iv blob : List Nat) (aad : Option (List Nat)) :
    Encryption.encrypt p key aad iv = .error .encryptionFailed ∧
    Encryption.decrypt blob key aad = .error .decryptionFailed ∧
    Encryption.decrypt blob key aad ≠ .error .integrityCheckFailed ∧
    ∀ pt : List Nat, Encryption.decrypt blob key aad ≠ .ok pt := by
  have hd := Encryption.decrypt_always_fails blob key aad
  refine ⟨Encryption.encrypt_always_fails p key aad iv, hd, ?_, ?_⟩
  · rw [hd]
    intro h
    exact Encryption.CryptoError.noConfusion (Except.error.inj h)
  · intro pt h
    rw [hd] at h
    exact Except.noConfusion h

/-- C8 counterexample: for a 31-byte key, `encrypt` does not surface an
`InvalidKeyLength` error — the `catch` block re-throws the internal
key-length error as the generic `Encryption failed` error (and `decrypt`
as `Decryption failed`), so the claim that the raised error identifies the
invalid key length is false. -/
theorem C8_counterexample :
    Encryption.encrypt [1] (List.replicate 31 0) none (List.replicate 16 0) =
      .error .encryptionFailed ∧
    (∀ e g, Encryption.encrypt [1] (List.replicate 31 0) none (List.replicate 16 0) ≠
      .error (.invalidKeyLength e g)) ∧
    Encryption.decrypt [1] (List.replicate 31 0) none = .error .decryptionFailed ∧
    (∀ e g, Encryption.decrypt [1] (List.replicate 31 0) none ≠
      .error (.invalidKeyLength e g)) := by
  have henc : Encryption.encrypt [1] (List.replicate 31 0) none (List.replicate 16 0) =
      .error .encryptionFailed := rfl
  have hdec : Encryption.decrypt [1] (List.replicate 31 0) none =
      .error .decryptionFailed := rfl
  refine ⟨henc, ?_, hdec, ?_⟩
  · intro e g h
    rw [henc] at h
    exact Encryption.CryptoError.noConfusion (Except.error.inj h)
  · intro e g h
    rw [hdec] at h
    exact Encryption.CryptoError.noConfusion (Except.error.inj h)

/-- C8 (amended): for every plaintext and every key whose length is not 32
bytes, the `try` body of `encrypt` throws the internal
`Invalid key length` error and never produces a ciphertext, but the
`catch` block surfaces it to the caller as the generic `Encryption failed`
error; `decrypt` likewise surfaces `Decryption failed`. -/
theorem C8_wrong_key_length_fails (p key : List Nat) (aad : Option (List Nat))
    (iv : List Nat) (h : key.length ≠ 32) :
    Encryption.encryptBody p key aad iv = .error (.invalidKeyLength 32 key.length) ∧
    Encryption.encrypt p key aad iv = .error .encryptionFailed ∧
    Encryption.decrypt p key aad = .error .decryptionFailed := by
  refine ⟨?_, ?_, ?_⟩
  · simp [Encryption.encryptBody, Encryption.KEY_LENGTH, h]
  · simp [Encryption.encrypt, Encryption.encryptBody, Encryption.KEY_LENGTH, h]
  · simp [Encryption.decrypt, Encryption.decryptBody, Encryption.KEY_LENGTH, h]

/-- Witness for C8 (amended) at a concrete 31-byte key. -/
theorem C8_wrong_key_length_fails_witness :
    Encryption.encryptBody [5] (List.replicate 31 2) none (List.replicate 16 0) =
      .error (.invalidKeyLength 32 31) ∧
    Encryption.encrypt [5] (List.replicate 31 2) none (List.replicate 16 0) =
      .error .encryptionFailed ∧
    Encryption.decrypt [5] (List.replicate 31 2) none = .error .decryptionFailed := by
  have := C8_wrong_key_length_fails [5] (List.replicate 31 2) none (List.replicate 16 0)
    (by simp)
  simpa using this

/-- C7 (code-bug evidence): `encryptPHI` never succeeds (its `encrypt`
call always throws `Encryption failed` because `createCipherGCM` does not
exist), and `decryptPHI` can only reach its HMAC branches: with a
matching HMAC it fails with the generic `Decryption failed` propagated
from `decrypt` (nonexistent `createDecipherGCM`), with a same-length
non-matching HMAC it fails with `Data integrity check failed`, and it
never returns a payload and never raises `Metadata mismatch detected` —
the success and metadata-mismatch clauses of the claim describe
unreachable code. -/
theorem C7_decryptPHI_never_succeeds (rec : Encryption.PHIRecord)
    (masterKey phiData iv : List Nat) (ts : Nat) :
    Encryption.encryptPHI phiData masterKey ts iv = .error .encryptionFailed ∧
    (rec.integrity_hash = Encryption.createHMAC rec.encrypted_data masterKey →
      Encryption.decryptPHI rec masterKey = .error .decryptionFailed) ∧
    (rec.integrity_hash.length = 32 →
      rec.integrity_hash ≠ Encryption.createHMAC rec.encrypted_data masterKey →
      Encryption.decryptPHI rec masterKey = .error .integrityCheckFailed) ∧
    (∀ d : List Nat, Encryption.decryptPHI rec masterKey ≠ .ok d) ∧
    Encryption.decryptPHI rec masterKey ≠ .error .metadataMismatch := by
  refine ⟨Encryption.encryptPHI_always_fails phiData masterKey ts iv, ?_,
    fun hlen hne => Encryption.decryptPHI_bad_hmac rec masterKey hlen hne, ?_, ?_⟩
  · intro h
    unfold Encryption.decryptPHI
    rw [h, Encryption.verifyHMAC_self, Encryption.decrypt_always_fails]
  · intro d h
    rcases Encryption.decryptPHI_result_shape rec masterKey with h1 | h1 | h1 <;>
      rw [h1] at h <;> exact Except.noConfusion h
  · intro h
    rcases Encryption.decryptPHI_result_shape rec masterKey with h1 | h1 | h1 <;>
      rw [h1] at h <;>
      exact Encryption.CryptoError.noConfusion (Except.error.inj h)

set_option maxRecDepth 100000 in
/-- Witness for C7 at concrete records: one whose `integrity_hash` is the
correct HMAC of its ciphertext (decryption still fails, generically) and
one with a wrong same-length HMAC (integrity error). -/
theorem C7_decryptPHI_never_succeeds_witness :
    Encryption.encryptPHI [1] (List.replicate 32 0) 0 (List.replicate 16 0) =
      .error .encryptionFailed ∧
    Encryption.decryptPHI
      ⟨[1, 2, 3], Encryption.createHMAC [1, 2, 3] (List.replicate 32 0), 0⟩
      (List.replicate 32 0) = .error .decryptionFailed ∧
    Encryption.decryptPHI ⟨[1, 2, 3], List.replicate 32 9, 0⟩ (List.replicate 32 0) =
      .error .integrityCheckFailed := by
  obtain ⟨h1, h2, -, -, -⟩ :=
    C7_decryptPHI_never_succeeds
      ⟨[1, 2, 3], Encryption.createHMAC [1, 2, 3] (List.replicate 32 0), 0⟩
      (List.replicate 32 0) [1] (List.replicate 16 0) 0
  obtain ⟨-, -, h3, -, -⟩ :=
    C7_decryptPHI_never_succeeds ⟨[1, 2, 3], List.replicate 32 9, 0⟩
      (List.replicate 32 0) [1] (List.replicate 16 0) 0
  exact ⟨h1, h2 rfl, h3 (by simp) (by decide)⟩

/-- C10: a candidate HMAC tag whose decoded length is not the 32 bytes of
a SHA-256 output makes `verifyHMAC` raise (the length error of
`crypto.timingSafeEqual`) instead of returning false, and `decryptPHI` on
a record with such an `integrity_hash` raises that error, which is not
the `Data integrity check failed` `IntegrityError`. -/
theorem C10_verifyHMAC_wrong_length_throws (data key hmacValue : List Nat) (ts : Nat)
    (h : hmacValue.length ≠ 32) :
    Encryption.verifyHMAC data hmacValue key =
      .error (.timingSafeEqualLength hmacValue.length 32) ∧
    (∀ bo : Bool, Encryption.verifyHMAC data hmacValue key ≠ .ok bo) ∧
    Encryption.decryptPHI ⟨data, hmacValue, ts⟩ key =
      .error (.timingSafeEqualLength hmacValue.length 32) ∧
    Encryption.decryptPHI ⟨data, hmacValue, ts⟩ key ≠ .error .integrityCheckFailed := by
  have h1 : Encryption.verifyHMAC data hmacValue key =
      .error (.timingSafeEqualLength hmacValue.length 32) := by
    unfold Encryption.verifyHMAC
    rw [if_pos (by simp [Encryption.createHMAC_length, h])]
    rw [Encryption.createHMAC_length]
  have h3 : Encryption.decryptPHI ⟨data, hmacValue, ts⟩ key =
      .error (.timingSafeEqualLength hmacValue.length 32) := by
    unfold Encryption.decryptPHI
    rw [show (Encryption.PHIRecord.mk data hmacValue ts).integrity_hash = hmacValue from rfl]
    rw [show (Encryption.PHIRecord.mk data hmacValue ts).encrypted_data = data from rfl]
    rw [h1]
  refine ⟨h1, fun bo hcontra => ?_, h3, fun hcontra => ?_⟩
  · rw [h1] at hcontra
    exact Except.noConfusion hcontra
  · rw [h3] at hcontra
    exact Encryption.CryptoError.noConfusion (Except.error.inj hcontra)

/-- Witness for C10 at a concrete 3-byte tag. -/
theorem C10_verifyHMAC_wrong_length_throws_witness :
    Encryption.verifyHMAC [1, 2] [0, 0, 0] (List.replicate 32 0) =
      .error (.timingSafeEqualLength 3 32) ∧
    Encryption.decryptPHI ⟨[1, 2], [0, 0, 0], 7⟩ (List.replicate 32 0) =
      .error (.timingSafeEqualLength 3 32) := by
  obtain ⟨h1, -, h3, -⟩ :=
    C10_verifyHMAC_wrong_length_throws [1, 2] (List.replicate 32 0) [0, 0, 0] 7 (by decide)
  exact ⟨h1, h3⟩

/-- C3 (code-bug evidence): six consecutive login attempts with the known
username and a wrong password, all from the same client, starting from
the program's initial (empty) session store, all yield
401 `Invalid credentials` and leave the store unchanged; none is
rate-limited.  No failure branch of the login handler ever increments
`loginAttempts` (sessions are created only on success, with
`loginAttempts: 0`), so `recentAttempts` is always 0 and the 429 branch
is unreachable. -/
theorem C3_rate_limit_never_triggers :
    Auth.loginSeq Auth.users [] (List.replicate 6 ("demo", "wrongpass")) "10.0.0.1" "ua" 0 =
      (List.replicate 6 ⟨401, "Invalid credentials"⟩, []) := rfl

/-- C4 counterexample: a session with `expiresAt = 100` still verifies
successfully at `now = 100` (the handler uses a strict
`new Date() > expiresAt` comparison and never checks `issuedAt`), so
verification does not succeed exactly on `now ∈ [issuedAt, expiresAt)`. -/
theorem C4_counterexample :
    ¬ (∀ (st : Auth.SessionStore) (sid : String) (s : Auth.Session) (now : Nat),
        Auth.lookupSession st sid = some s →
        ((Auth.verifyHandler st sid now).1.status = 200 ↔
          (s.createdAt ≤ now ∧ now < s.expiresAt))) := by
  intro h
  have h2 := h [("s1", ⟨"user_001", "demo", "org_healthcare_001", "ip", "ua", 0, 100, 0⟩)]
    "s1" ⟨"user_001", "demo", "org_healthcare_001", "ip", "ua", 0, 100, 0⟩ 100 rfl
  have h3 := h2.mp rfl
  exact absurd h3.2 (lt_irrefl 100)

/-- C4 (amended): verification succeeds exactly when the session is still
in the store (not revoked or swept) and `now ≤ expiresAt` — the handler's
expiry comparison is strict, so the instant `now = expiresAt` still
verifies, and the `issuedAt` lower bound is never checked; a missing
(revoked) session fails with `Session expired`, and an expired one fails
with `Session expired` and is removed from the store. -/
theorem C4_verify_session_characterization (st : Auth.SessionStore) (sid : String)
    (now : Nat) :
    ((Auth.verifyHandler st sid now).1.status = 200 ↔
      (∃ s, Auth.lookupSession st sid = some s ∧ now ≤ s.expiresAt)) ∧
    (Auth.lookupSession st sid = none →
      Auth.verifyHandler st sid now = (⟨401, "Session expired"⟩, st)) ∧
    (∀ s, Auth.lookupSession st sid = some s → s.expiresAt < now →
      Auth.verifyHandler st sid now = (⟨401, "Session expired"⟩, Auth.removeSession st sid)) := by
  refine ⟨?_, ?_, ?_⟩
  · cases hl : Auth.lookupSession st sid with
    | none => simp [Auth.verifyHandler, hl]
    | some s =>
      by_cases hexp : s.expiresAt < now
      · simp only [Auth.verifyHandler, hl, if_pos hexp]
        constructor
        · intro hc
          exact absurd hc (by norm_num)
        · rintro ⟨s2, hs2, hle⟩
          rw [Option.some.injEq] at hs2
          subst hs2
          omega
      · simp only [Auth.verifyHandler, hl, if_neg hexp]
        constructor
        · intro _
          exact ⟨s, rfl, by omega⟩
        · intro _
          trivial
  · intro hl
    simp [Auth.verifyHandler, hl]
  · intro s hl hexp
    simp [Auth.verifyHandler, hl, hexp]

/-- Witness for C4 (amended): a session expiring at 100 verifies at
`now = 100`, fails (and is removed) at `now = 200`, and an unknown
session id fails with `Session expired`. -/
theorem C4_verify_session_characterization_witness :
    (Auth.verifyHandler
        [("s1", ⟨"user_001", "demo", "org_healthcare_001", "ip", "ua", 0, 100, 0⟩)]
        "s1" 100).1.status = 200 ∧
    Auth.verifyHandler
        [("s1", ⟨"user_001", "demo", "org_healthcare_001", "ip", "ua", 0, 100, 0⟩)]
        "s1" 200 =
      (⟨401, "Session expired"⟩,
        Auth.removeSession
          [("s1", ⟨"user_001", "demo", "org_healthcare_001", "ip", "ua", 0, 100, 0⟩)] "s1") ∧
    Auth.verifyHandler
        [("s1", ⟨"user_001", "demo", "org_healthcare_001", "ip", "ua", 0, 100, 0⟩)]
        "nosuch" 50 =
      (⟨401, "Session expired"⟩,
        [("s1", ⟨"user_001", "demo", "org_healthcare_001", "ip", "ua", 0, 100, 0⟩)]) := by
  refine ⟨?_, ?_, ?_⟩
  · exact (C4_verify_session_characterization _ _ _).1.mpr ⟨_, rfl, by norm_num⟩
  · exact (C4_verify_session_characterization _ _ _).2.2 _ rfl (by norm_num)
  · exact (C4_verify_session_characterization _ _ _).2.1 rfl

/-- C9: an unknown username and a known username with a wrong password
produce identical responses (401, `Invalid credentials`), while the audit
trail records the two distinct causes (`login_user_not_found` vs
`login_invalid_password`). -/
theorem C9_login_failures_indistinguishable (usersDb : List (String × Auth.User))
    (st : Auth.SessionStore) (u1 p1 u2 p2 clientIP userAgent sid : String) (now : Nat)
    (user : Auth.User)
    (hrate : Auth.recentAttempts st clientIP < 3)
    (h1 : usersDb.find? (fun e => e.1 == u1) = none)
    (h2 : (usersDb.find? (fun e => e.1 == u2)).map (fun e => e.2) = some user)
    (hactive : user.isActive = true)
    (hpw : Auth.bcryptCompare p2 user.passwordHash = false) :
    (Auth.loginHandler usersDb st u1 p1 clientIP userAgent now sid).response =
      (Auth.loginHandler usersDb st u2 p2 clientIP userAgent now sid).response ∧
    (Auth.loginHandler usersDb st u1 p1 clientIP userAgent now sid).response =
      ⟨401, "Invalid credentials"⟩ ∧
    (Auth.loginHandler usersDb st u1 p1 clientIP userAgent now sid).audit =
      [⟨"warning", "login_user_not_found"⟩] ∧
    (Auth.loginHandler usersDb st u2 p2 clientIP userAgent now sid).audit =
      [⟨"warning", "login_invalid_password"⟩] ∧
    (Auth.loginHandler usersDb st u1 p1 clientIP userAgent now sid).audit ≠
      (Auth.loginHandler usersDb st u2 p2 clientIP userAgent now sid).audit := by
  have hrate2 : ¬ (3 ≤ Auth.recentAttempts st clientIP) := by omega
  simp [Auth.loginHandler, hrate2, h1, h2, hactive, hpw]

/-- Witness for C9 against the repository's mock user database. -/
theorem C9_login_failures_indistinguishable_witness :
    (Auth.loginHandler Auth.users [] "nobody" "x" "ip" "ua" 0 "sid").response =
      ⟨401, "Invalid credentials"⟩ ∧
    (Auth.loginHandler Auth.users [] "demo" "wrongpass" "ip" "ua" 0 "sid").response =
      ⟨401, "Invalid credentials"⟩ ∧
    (Auth.loginHandler Auth.users [] "nobody" "x" "ip" "ua" 0 "sid").audit ≠
      (Auth.loginHandler Auth.users [] "demo" "wrongpass" "ip" "ua" 0 "sid").audit := by
  obtain ⟨hEq, hR1, hA1, hA2, hNe⟩ :=
    C9_login_failures_indistinguishable Auth.users [] "nobody" "x" "demo" "wrongpass"
      "ip" "ua" "sid" 0
      ⟨"user_001", "demo", Auth.bcryptHash "demo123", "org_healthcare_001",
        "healthcare_provider", ["read", "write", "upload"], true⟩
      (by decide) rfl rfl rfl (by decide)
  exact ⟨hR1, hEq.symm.trans hR1, hNe⟩

namespace Audit

mutual

theorem redactedVal_sanitizeValue : (j : Jval) → RedactedVal (sanitizeValue j)
  | .s _ => by simp [sanitizeValue, RedactedVal]
  | .n _ => by simp [sanitizeValue, RedactedVal]
  | .b _ => by simp [sanitizeValue, RedactedVal]
  | .null => by simp [sanitizeValue, RedactedVal]
  | .obj fields => by
    simp only [sanitizeValue, RedactedVal]
    exact redactedFields_sanitizeFields fields
  | .arr elems => by
    simp only [sanitizeValue, RedactedVal]
    exact redactedElems_sanitizeElems elems

theorem redactedFields_sanitizeFields :
    (fs : List (String × Jval)) → RedactedFields (sanitizeFields fs)
  | [] => by simp [sanitizeFields, RedactedFields]
  | (k, v) :: rest => by
    by_cases hk : isSensitiveKey k = true
    · have he : sanitizeFields ((k, v) :: rest) = (k, REDACTED) :: sanitizeFields rest := by
        simp [sanitizeFields, hk]
      rw [he]
      have h2 := redactedFields_sanitizeFields rest
      simp [RedactedFields, hk, h2]
    · have he : sanitizeFields ((k, v) :: rest) =
          (k, sanitizeValue v) :: sanitizeFields rest := by
        simp [sanitizeFields, hk]
      rw [he]
      have h1 := redactedVal_sanitizeValue v
      have h2 := redactedFields_sanitizeFields rest
      simp [RedactedFields, hk, h1, h2]

theorem redactedElems_sanitizeElems : (xs : List Jval) → RedactedElems (sanitizeElems xs)
  | [] => by simp [sanitizeElems, RedactedElems]
  | v :: rest => by
    simp only [sanitizeElems, RedactedElems]
    exact ⟨redactedVal_sanitizeValue v, redactedElems_sanitizeElems rest⟩

end

theorem lookupField_cons (k0 : String) (v0 : Jval) (rest : Jfields) (k : String) :
    lookupField ((k0, v0) :: rest) k =
      if k0 == k then some v0 else lookupField rest k := by
  unfold lookupField
  cases h : (k0 == k) <;> simp [List.find?_cons, h]

theorem lookupField_append_of_some (A B : Jfields) (k : String) (v : Jval)
    (h : lookupField A k = some v) : lookupField (A ++ B) k = some v := by
  induction A with
  | nil => simp [lookupField] at h
  | cons e rest ih =>
    obtain ⟨k0, v0⟩ := e
    rw [List.cons_append, lookupField_cons]
    rw [lookupField_cons] at h
    cases hk : (k0 == k) with
    | true =>
      have e0 : k0 = k := by simpa using hk
      simp [e0] at h ⊢
      exact h
    | false =>
      have e0 : ¬ (k0 = k) := by simpa using hk
      simp [e0] at h ⊢
      exact ih h

theorem lookupField_append_of_none (A B : Jfields) (k : String)
    (h : lookupField A k = none) : lookupField (A ++ B) k = lookupField B k := by
  induction A with
  | nil => rfl
  | cons e rest ih =>
    obtain ⟨k0, v0⟩ := e
    rw [List.cons_append, lookupField_cons]
    rw [lookupField_cons] at h
    cases hk : (k0 == k) with
    | true =>
      have e0 : k0 = k := by simpa using hk
      simp [e0] at h
    | false =>
      have e0 : ¬ (k0 = k) := by simpa using hk
      simp [e0] at h ⊢
      exact ih h

theorem lookupField_append_single_ne (fs : Jfields) (k k2 : String) (v : Jval)
    (h : (k2 == k) = false) :
    lookupField (fs ++ [(k2, v)]) k = lookupField fs k := by
  cases hl : lookupField fs k with
  | some w => exact lookupField_append_of_some fs _ k w hl
  | none =>
    rw [lookupField_append_of_none fs _ k hl, lookupField_cons]
    simp [h, lookupField]

theorem lookupField_removeField_ne (fs : Jfields) (k k2 : String)
    (h : (k2 == k) = false) :
    lookupField (removeField fs k2) k = lookupField fs k := by
  induction fs with
  | nil => rfl
  | cons e rest ih =>
    obtain ⟨k0, v0⟩ := e
    by_cases h0 : (k0 == k2) = true
    · have hrm : removeField ((k0, v0) :: rest) k2 = removeField rest k2 := by
        simp [removeField, List.filter_cons, h0]
      have hk0 : (k0 == k) = false := by
        have e0 : k0 = k2 := by simpa using h0
        subst e0
        exact h
      rw [hrm, ih, lookupField_cons, hk0]
      simp
    · have h0f : (k0 == k2) = false := by simpa using h0
      have hrm : removeField ((k0, v0) :: rest) k2 = (k0, v0) :: removeField rest k2 := by
        simp [removeField, List.filter_cons, h0f]
      rw [hrm, lookupField_cons, lookupField_cons, ih]

theorem lookupField_sanitizeFields (fs : Jfields) (k : String) :
    lookupField (sanitizeFields fs) k =
      (lookupField fs k).map
        (fun v => if isSensitiveKey k = true then REDACTED else sanitizeValue v) := by
  induction fs with
  | nil => simp [sanitizeFields, lookupField]
  | cons e rest ih =>
    obtain ⟨k0, v0⟩ := e
    by_cases hs : isSensitiveKey k0 = true
    · have he : sanitizeFields ((k0, v0) :: rest) = (k0, REDACTED) :: sanitizeFields rest := by
        simp [sanitizeFields, hs]
      rw [he, lookupField_cons, lookupField_cons]
      cases hk : (k0 == k)
      · simpa using ih
      · have ekk : k0 = k := by simpa using hk
        subst ekk
        simp [hs]
    · have hsf : isSensitiveKey k0 = false := by simpa using hs
      have he : sanitizeFields ((k0, v0) :: rest) =
          (k0, sanitizeValue v0) :: sanitizeFields rest := by
        simp [sanitizeFields, hsf]
      rw [he, lookupField_cons, lookupField_cons]
      cases hk : (k0 == k)
      · simpa using ih
      · have ekk : k0 = k := by simpa using hk
        subst ekk
        simp [hsf]

end Audit

namespace Audit

theorem lookupField_map_values_none (base : Jfields)
    (f : String × Jval → Jval) (k : String) (h : lookupField base k = none) :
    lookupField (base.map (fun e => (e.1, f e))) k = none := by
  induction base with
  | nil => rfl
  | cons e rest ih =>
    obtain ⟨k0, v0⟩ := e
    rw [lookupField_cons] at h
    rw [List.map_cons, lookupField_cons]
    cases hk : (k0 == k) with
    | true =>
      have e0 : k0 = k := by simpa using hk
      simp [e0] at h
    | false =>
      have e0 : ¬ (k0 = k) := by simpa using hk
      simp [e0] at h ⊢
      exact ih h

theorem lookupField_filter_keep_key (data : Jfields) (g : String × Jval → Bool)
    (k : String) (hg : ∀ e : String × Jval, (e.1 == k) = true → g e = true) :
    lookupField (data.filter g) k = lookupField data k := by
  induction data with
  | nil => rfl
  | cons e rest ih =>
    obtain ⟨k1, v1⟩ := e
    rw [List.filter_cons]
    cases hk : (k1 == k) with
    | true =>
      rw [if_pos (by simp [hg (k1, v1) hk])]
      rw [lookupField_cons, lookupField_cons, hk]
      simp
    | false =>
      cases hgv : g (k1, v1) with
      | true =>
        rw [if_pos (by simp [hgv])]
        rw [lookupField_cons, lookupField_cons, hk]
        simpa using ih
      | false =>
        rw [if_neg (by simp [hgv])]
        rw [ih, lookupField_cons, hk]
        simp

theorem lookupField_eq_none_keys (base : Jfields) (k : String)
    (h : lookupField base k = none) :
    ∀ e ∈ base, (e.1 == k) = false := by
  intro e he
  induction base with
  | nil => simp at he
  | cons e0 rest ih =>
    obtain ⟨k0, v0⟩ := e0
    rw [lookupField_cons] at h
    cases hk : (k0 == k) with
    | true =>
      have e0 : k0 = k := by simpa using hk
      simp [e0] at h
    | false =>
      have e0 : ¬ (k0 = k) := by simpa using hk
      simp [e0] at h
      rcases List.mem_cons.mp he with rfl | hmem
      · simpa using e0
      · exact ih h hmem

/-- When the base fields do not contain `k`, looking `k` up after the
spread finds exactly what `eventData` holds for it. -/
theorem lookupField_spreadMerge_of_base_none (base data : Jfields) (k : String)
    (h : lookupField base k = none) :
    lookupField (spreadMerge base data) k = lookupField data k := by
  unfold spreadMerge
  have h1 : lookupField
      (base.map (fun e => (e.1, (lookupField data e.1).getD e.2))) k = none :=
    lookupField_map_values_none base _ k h
  rw [lookupField_append_of_none _ _ _ h1]
  apply lookupField_filter_keep_key
  intro e hek
  have e1 : e.1 = k := by simpa using hek
  have hall := lookupField_eq_none_keys base k h
  have : ∀ b ∈ base, (b.1 == e.1) = false := by
    intro b hb
    rw [e1]
    exact hall b hb
  simp only [Bool.not_eq_true']
  rw [List.any_eq_false]
  intro b hb
  simp [this b hb]

theorem truthy_s_of_ne (v : String) (h : v ≠ "") : truthy (.s v) = true := by
  simp [truthy, h]

theorem natToHexChars_length (v l : Nat) : (natToHexChars v l).length = l := by
  induction l generalizing v with
  | zero => rfl
  | succ l ih => simp [natToHexChars, ih]

theorem hashSensitiveData_length (data : String) : (hashSensitiveData data).length = 16 := by
  show (String.mk (natToHexChars (sha256mix (data ++ AUDIT_SALT)) 16)).length = 16
  show (natToHexChars (sha256mix (data ++ AUDIT_SALT)) 16).length = 16
  exact natToHexChars_length _ 16

theorem natToHexChars_hex (v l : Nat) :
    ∀ c ∈ natToHexChars v l, c ∈ ("0123456789abcdef".data) := by
  induction l generalizing v with
  | zero => simp [natToHexChars]
  | succ l ih =>
    intro c hc
    simp only [natToHexChars, List.mem_cons] at hc
    rcases hc with rfl | hc
    · have h16 : v % 16 < 16 := Nat.mod_lt _ (by norm_num)
      set d := v % 16 with hd
      interval_cases d <;> decide
    · exact ih (v / 16) c hc

theorem hashSensitiveData_hex (data : String) :
    ∀ c ∈ (hashSensitiveData data).data, c ∈ ("0123456789abcdef".data) :=
  natToHexChars_hex _ 16

theorem hashSensitiveData_ne_of_length (data raw : String) (h : raw.length ≠ 16) :
    hashSensitiveData data ≠ raw := by
  intro he
  rw [← he, hashSensitiveData_length] at h
  exact h rfl

end Audit

namespace Audit

theorem lookupField_removeField_self (fs : Jfields) (k : String) :
    lookupField (removeField fs k) k = none := by
  induction fs with
  | nil => rfl
  | cons e rest ih =>
    obtain ⟨k0, v0⟩ := e
    cases h0 : (k0 == k) with
    | true =>
      have hrm : removeField ((k0, v0) :: rest) k = removeField rest k := by
        simp [removeField, List.filter_cons, h0]
      rw [hrm]
      exact ih
    | false =>
      have hrm : removeField ((k0, v0) :: rest) k = (k0, v0) :: removeField rest k := by
        simp [removeField, List.filter_cons, h0]
      rw [hrm, lookupField_cons, h0]
      simpa using ih

theorem lookupField_addSessionContext (eventData entry : Jfields) (k : String)
    (h1 : ("req" == k) = false) (h2 : ("sessionContext" == k) = false) :
    lookupField (addSessionContext eventData entry) k = lookupField entry k := by
  unfold addSessionContext
  cases h : reqUserFields eventData with
  | none => rfl
  | some userFields =>
    dsimp only [Option.elim]
    rw [lookupField_append_single_ne _ _ _ _ h2]
    exact lookupField_removeField_ne entry k "req" h1

theorem lookupField_addNetworkContext (eventData entry : Jfields) (k : String)
    (h1 : ("networkContext" == k) = false) :
    lookupField (addNetworkContext eventData entry) k = lookupField entry k := by
  unfold addNetworkContext
  cases h : clientIPVal eventData with
  | none => rfl
  | some ip =>
    dsimp only [Option.elim]
    exact lookupField_append_single_ne _ _ _ _ h1

theorem patientIdVal_of_truthy (entry : Jfields) (pid : Jval)
    (hp : lookupField entry "patientId" = some pid) (ht : truthy pid = true) :
    patientIdVal entry = some pid := by
  unfold patientIdVal
  rw [hp]
  simp [ht]

theorem hashPatientField_of_truthy (entry : Jfields) (pid : Jval)
    (hp : lookupField entry "patientId" = some pid) (ht : truthy pid = true) :
    hashPatientField entry =
      removeField entry "patientId" ++
        [("hashedPatientId", .s (hashSensitiveData (jvalToString pid)))] := by
  unfold hashPatientField
  rw [patientIdVal_of_truthy entry pid hp ht]
  rfl

end Audit

/-- C5 counterexample: when the log sink is unavailable, `log` returns
`undefined` (no event id) — the `catch` block emits the fallback record
but has no `return` statement — so the claim that the failure path still
yields a generated id is false. -/
theorem C5_counterexample :
    Audit.log "info" "phi_uploaded" [] "evt-1" "t0" false true =
      .ok (none, [.fallbackConsole "phi_uploaded"]) ∧
    (∀ (eid : String) (ems : List Audit.Emission),
      Audit.log "info" "phi_uploaded" [] "evt-1" "t0" false true ≠ .ok (some eid, ems)) := by
  have h1 : Audit.log "info" "phi_uploaded" [] "evt-1" "t0" false true =
      .ok (none, [.fallbackConsole "phi_uploaded"]) := rfl
  refine ⟨h1, fun eid ems hc => ?_⟩
  rw [h1] at hc
  have h2 := congrArg Prod.fst (Except.ok.inj hc)
  exact Option.noConfusion h2

/-- C5 (amended): `record` never raises into its caller — every sink
failure is caught — and returns the generated event id when the sink
writes succeed; when the underlying sink fails it logs the fallback
`AUDIT_LOG_FAILURE` record but returns `undefined` (no id), not a
generated id. -/
theorem C5_log_never_raises (level eventType : String) (eventData : Audit.Jfields)
    (eventId timestamp : String) (sinkOk securitySinkOk : Bool) :
    ∃ res, Audit.log level eventType eventData eventId timestamp sinkOk securitySinkOk =
        .ok res ∧
      (res.1 = some eventId ∨
        (res.1 = none ∧ res.2 = [.fallbackConsole eventType])) := by
  cases sinkOk with
  | false =>
    exact ⟨(none, [.fallbackConsole eventType]), rfl, Or.inr ⟨rfl, rfl⟩⟩
  | true =>
    by_cases hsec : Audit.isSecurityEvent level eventType = true
    · cases securitySinkOk with
      | false =>
        refine ⟨(none, [.fallbackConsole eventType]), ?_, Or.inr ⟨rfl, rfl⟩⟩
        simp [Audit.log, Audit.logTry, hsec]
      | true =>
        refine ⟨(some eventId,
          [.audit level (Audit.buildAuditEntry level eventType eventData eventId timestamp),
           .security (Audit.buildAuditEntry level eventType eventData eventId timestamp)]),
          ?_, Or.inl rfl⟩
        simp [Audit.log, Audit.logTry, hsec]
    · refine ⟨(some eventId,
        [.audit level (Audit.buildAuditEntry level eventType eventData eventId timestamp)]),
        ?_, Or.inl rfl⟩
      simp [Audit.log, Audit.logTry, hsec]

/-- C6 counterexample: a `patientId` nested one level deep in the event
fields is neither hashed nor removed — the emitted entry still carries
the raw identifier `P1` under `details.patientId` and gains no
`hashedPatientId` — because the hashing step only inspects the top-level
`patientId` property and no sensitive-key pattern matches `patientId`. -/
theorem C6_counterexample :
    Audit.lookupField
        (Audit.buildAuditEntry "info" "phi_accessed"
          [("details", .obj [("patientId", .s "P1")])] "e1" "t1") "details" =
      some (.obj [("patientId", .s "P1")]) ∧
    Audit.lookupField
        (Audit.buildAuditEntry "info" "phi_accessed"
          [("details", .obj [("patientId", .s "P1")])] "e1" "t1") "hashedPatientId" =
      none := by
  have hb : Audit.buildAuditEntry "info" "phi_accessed"
      [("details", .obj [("patientId", .s "P1")])] "e1" "t1" =
      Audit.sanitizeFields
        [("eventId", .s "e1"), ("eventType", .s "phi_accessed"), ("level", .s "INFO"),
         ("timestamp", .s "t1"), ("source", .s "hipaa-photo-collector-api"),
         ("details", .obj [("patientId", .s "P1")])] := rfl
  constructor
  · rw [hb, Audit.lookupField_sanitizeFields]
    rw [show Audit.lookupField
        [("eventId", .s "e1"), ("eventType", .s "phi_accessed"), ("level", .s "INFO"),
         ("timestamp", .s "t1"), ("source", .s "hipaa-photo-collector-api"),
         ("details", .obj [("patientId", .s "P1")])] "details" =
      some (.obj [("patientId", .s "P1")]) from rfl]
    simp [show Audit.isSensitiveKey "details" = false from by decide,
      Audit.sanitizeValue, Audit.sanitizeFields,
      show Audit.isSensitiveKey "patientId" = false from by decide]
  · rw [hb, Audit.lookupField_sanitizeFields]
    rw [show Audit.lookupField
        [("eventId", .s "e1"), ("eventType", .s "phi_accessed"), ("level", .s "INFO"),
         ("timestamp", .s "t1"), ("source", .s "hipaa-photo-collector-api"),
         ("details", .obj [("patientId", .s "P1")])] "hashedPatientId" = none from rfl]
    rfl

/-- C6 (amended): every field of the emitted audit entry, at any nesting
depth, whose key matches a sensitive-field pattern (password, token,
secret, key, authorization, cookie, session, csrf) holds the redaction
marker `[REDACTED]`; a truthy top-level `patientId` (the only place the
code looks — nested occurrences are left raw, see the counterexample) is
removed and replaced by `hashedPatientId`, a 16-character hex string,
which differs from any raw identifier whose length is not 16 (such as
`P1`). -/
theorem C6_redaction_and_patient_hashing (level eventType : String)
    (eventData : Audit.Jfields) (eventId timestamp pid : String)
    (hpid : Audit.lookupField eventData "patientId" = some (.s pid))
    (hne : pid ≠ "")
    (hnoh : Audit.lookupField eventData "hashedPatientId" = none) :
    Audit.RedactedFields (Audit.buildAuditEntry level eventType eventData eventId timestamp) ∧
    Audit.lookupField (Audit.buildAuditEntry level eventType eventData eventId timestamp)
      "patientId" = none ∧
    Audit.lookupField (Audit.buildAuditEntry level eventType eventData eventId timestamp)
      "hashedPatientId" = some (.s (Audit.hashSensitiveData pid)) ∧
    (Audit.hashSensitiveData pid).length = 16 ∧
    (∀ c ∈ (Audit.hashSensitiveData pid).data, c ∈ ("0123456789abcdef".data)) ∧
    (pid.length ≠ 16 → Audit.hashSensitiveData pid ≠ pid) := by
  have hbase_p : Audit.lookupField (Audit.entryBase level eventType eventId timestamp)
      "patientId" = none := rfl
  have hbase_h : Audit.lookupField (Audit.entryBase level eventType eventId timestamp)
      "hashedPatientId" = none := rfl
  set E1 := Audit.spreadMerge (Audit.entryBase level eventType eventId timestamp) eventData
    with hE1
  have h1p : Audit.lookupField E1 "patientId" = some (.s pid) := by
    rw [hE1, Audit.lookupField_spreadMerge_of_base_none _ _ _ hbase_p]
    exact hpid
  have h1h : Audit.lookupField E1 "hashedPatientId" = none := by
    rw [hE1, Audit.lookupField_spreadMerge_of_base_none _ _ _ hbase_h]
    exact hnoh
  set E2 := Audit.addSessionContext eventData E1 with hE2
  have h2p : Audit.lookupField E2 "patientId" = some (.s pid) := by
    rw [hE2, Audit.lookupField_addSessionContext _ _ _ (by decide) (by decide)]
    exact h1p
  have h2h : Audit.lookupField E2 "hashedPatientId" = none := by
    rw [hE2, Audit.lookupField_addSessionContext _ _ _ (by decide) (by decide)]
    exact h1h
  set E3 := Audit.addNetworkContext eventData E2 with hE3
  have h3p : Audit.lookupField E3 "patientId" = some (.s pid) := by
    rw [hE3, Audit.lookupField_addNetworkContext _ _ _ (by decide)]
    exact h2p
  have h3h : Audit.lookupField E3 "hashedPatientId" = none := by
    rw [hE3, Audit.lookupField_addNetworkContext _ _ _ (by decide)]
    exact h2h
  have hE4 : Audit.hashPatientField E3 =
      Audit.removeField E3 "patientId" ++
        [("hashedPatientId", .s (Audit.hashSensitiveData pid))] :=
    Audit.hashPatientField_of_truthy E3 (.s pid) h3p (Audit.truthy_s_of_ne pid hne)
  have hfinal : Audit.buildAuditEntry level eventType eventData eventId timestamp =
      Audit.sanitizeFields (Audit.hashPatientField E3) := by
    rw [hE3, hE2, hE1]
    rfl
  refine ⟨?_, ?_, ?_, Audit.hashSensitiveData_length pid, Audit.hashSensitiveData_hex pid,
    fun hl => Audit.hashSensitiveData_ne_of_length pid pid hl⟩
  · rw [hfinal]
    exact Audit.redactedFields_sanitizeFields _
  · rw [hfinal, Audit.lookupField_sanitizeFields]
    have hnone : Audit.lookupField (Audit.hashPatientField E3) "patientId" = none := by
      rw [hE4, Audit.lookupField_append_single_ne _ _ _ _ (by decide),
        Audit.lookupField_removeField_self]
    rw [hnone]
    rfl
  · rw [hfinal, Audit.lookupField_sanitizeFields]
    have hsome : Audit.lookupField (Audit.hashPatientField E3) "hashedPatientId" =
        some (.s (Audit.hashSensitiveData pid)) := by
      rw [hE4]
      have hrm : Audit.lookupField (Audit.removeField E3 "patientId") "hashedPatientId" =
          none := by
        rw [Audit.lookupField_removeField_ne _ _ _ (by decide)]
        exact h3h
      rw [Audit.lookupField_append_of_none _ _ _ hrm]
      rfl
    rw [hsome]
    simp [show Audit.isSensitiveKey "hashedPatientId" = false from by decide,
      Audit.sanitizeValue]

/-- Witness for C6 (amended): a concrete event carrying a top-level
`patientId` and a `password` field. -/
theorem C6_redaction_and_patient_hashing_witness :
    Audit.RedactedFields (Audit.buildAuditEntry "info" "phi_uploaded"
      [("patientId", .s "P1"), ("password", .s "hunter2")] "e1" "t0") ∧
    Audit.lookupField (Audit.buildAuditEntry "info" "phi_uploaded"
      [("patientId", .s "P1"), ("password", .s "hunter2")] "e1" "t0") "patientId" = none ∧
    Audit.lookupField (Audit.buildAuditEntry "info" "phi_uploaded"
      [("patientId", .s "P1"), ("password", .s "hunter2")] "e1" "t0") "hashedPatientId" =
      some (.s (Audit.hashSensitiveData "P1")) ∧
    (Audit.hashSensitiveData "P1").length = 16 ∧
    Audit.hashSensitiveData "P1" ≠ "P1" := by
  obtain ⟨h1, h2, h3, h4, -, h6⟩ :=
    C6_redaction_and_patient_hashing "info" "phi_uploaded"
      [("patientId", .s "P1"), ("password", .s "hunter2")] "e1" "t0" "P1"
      rfl (by decide) rfl
  exact ⟨h1, h2, h3, h4, h6 (by decide)⟩
